import Mathlib

/-!
Verification of the rule-based resume parser in `src/utils/contentParser.js`
(`parseResumeContent` and its helpers `extractContactInfo`, `extractSections`,
`extractWorkExperience`, `extractEducation`, `extractSkills`, `isDate`,
`isSectionHeader`).  The JavaScript is shallowly embedded: strings are Lean
`String`s (lists of code points; JavaScript string lengths count UTF-16 code
units, which coincides with code points for every character used here except
astral symbols such as the pin emoji, noted where relevant), JavaScript regular
expressions are transcribed into a small backtracking regex engine with
JavaScript's ordered-alternation and greedy-quantifier preferences, and the
imperative scan loops become explicit state-passing recursion.  `null` /
`undefined` record fields become `Option`.
-/

/-- Character set of JavaScript `\s` restricted to the ASCII whitespace that can
occur in the inputs handled here (space, tab, newline, carriage return). -/
def wsChar (c : Char) : Bool := c = ' ' || c = '\t' || c = '\n' || c = '\r'

/-- JavaScript `String.prototype.trim` (ASCII whitespace). -/
def jsTrimList (l : List Char) : List Char :=
  ((l.dropWhile wsChar).reverse.dropWhile wsChar).reverse

/-- JavaScript `String.prototype.trim` on `String`. -/
def jsTrim (s : String) : String := String.mk (jsTrimList s.data)

/-- Split a character list at every occurrence of `sep`, keeping empty pieces,
as JavaScript `split` with a one-character string separator does. -/
def splitCharList (sep : Char) : List Char → List Char → List String
  | [], acc => [String.mk acc.reverse]
  | c :: t, acc =>
    if c = sep then String.mk acc.reverse :: splitCharList sep t []
    else splitCharList sep t (c :: acc)

/-- JavaScript `s.split('\n')`. -/
def splitLines (s : String) : List String := splitCharList '\n' s.data []

/-- JavaScript `s.split(c)` for a one-character separator. -/
def jsSplitChar (sep : Char) (s : String) : List String := splitCharList sep s.data []

/-- JavaScript `Array.prototype.join(sep)`. -/
def joinSep (sep : String) : List String → String
  | [] => ""
  | [x] => x
  | x :: xs => x ++ sep ++ joinSep sep xs

/-- Substring containment on character lists (JavaScript `String.prototype.includes`). -/
def containsSubList (hay needle : List Char) : Bool :=
  match hay with
  | [] => needle.isEmpty
  | _ :: t => needle.isPrefixOf hay || containsSubList t needle

/-- JavaScript `hay.includes(needle)`. -/
def containsSub (hay needle : String) : Bool := containsSubList hay.data needle.data

/-- JavaScript `s.includes(c)` for a single character. -/
def hasChar (s : String) (c : Char) : Bool := s.data.contains c

/-- JavaScript `s.startsWith(p)`. -/
def strStartsWith (s p : String) : Bool := p.data.isPrefixOf s.data

/-- First `k` characters (JavaScript `substring(0, k)`). -/
def strTake (s : String) (k : Nat) : String := String.mk (s.data.take k)

/-- Characters from position `k` on (JavaScript `substring(k)`). -/
def strDrop (s : String) (k : Nat) : String := String.mk (s.data.drop k)

/-- Index of the first occurrence of a character (JavaScript `indexOf`),
`none` when absent. -/
def idxOfCharList (c : Char) : List Char → Nat → Option Nat
  | [], _ => none
  | x :: t, i => if x = c then some i else idxOfCharList c t (i + 1)

/-- JavaScript `s.indexOf(c)` as an `Option`. -/
def jsIndexOfChar (s : String) (c : Char) : Option Nat := idxOfCharList c s.data 0

/-- Remove the first occurrence of `needle` (JavaScript `hay.replace(needle, '')`
with a plain-string pattern); `hay` is returned unchanged when `needle` is absent. -/
def removeFirstList (needle : List Char) : List Char → List Char
  | [] => []
  | c :: t =>
    if needle.isPrefixOf (c :: t) then (c :: t).drop needle.length
    else c :: removeFirstList needle t

/-- JavaScript `s.replace(target, '')` for a plain-string target. -/
def stringReplaceFirst (s target : String) : String :=
  String.mk (removeFirstList target.data s.data)

/-- Remove every occurrence of the listed characters (JavaScript
`s.replace(/[..]/g, '')` for a character class). -/
def removeChars (s : String) (cs : List Char) : String :=
  String.mk (s.data.filter (fun c => !(cs.contains c)))

/-!
A small regular-expression engine.  `RE` is the abstract syntax of the regex
features used by `contentParser.js`: character classes, concatenation, ordered
alternation (the left branch is preferred, as in JavaScript), greedy Kleene
star, the `^` and `$` anchors and the `\b` word boundary.  The matcher threads
the previously consumed character so that `^` (reachable only when no character
precedes the current position) and `\b` can be decided locally, and uses a
continuation so that backtracking explores alternatives in exactly
JavaScript's preference order.  `fuel` bounds the recursion depth; the bound
chosen in `reMatchAt` exceeds the depth any of the transcribed patterns can
reach on a given input.
-/

/-- Regular-expression syntax. -/
inductive RE where
  | eps : RE
  | bos : RE
  | eos : RE
  | wb : RE
  | cls : (Char → Bool) → RE
  | seq : RE → RE → RE
  | alt : RE → RE → RE
  | star : RE → RE

/-- Node count of a regex, used to compute a sufficient fuel bound. -/
def reSizeOf : RE → Nat
  | .seq a b => reSizeOf a + reSizeOf b + 1
  | .alt a b => reSizeOf a + reSizeOf b + 1
  | .star a => reSizeOf a + 1
  | _ => 1

/-- JavaScript `\w` (letters, digits, underscore), used by `\b`. -/
def isWordChar (c : Char) : Bool := c.isAlpha || c.isDigit || c = '_'

/-- Backtracking matcher.  `prev` is the character immediately before the
current position (`none` at the start of the subject), `k` the continuation
receiving the updated `prev` and the unconsumed suffix.  Alternation tries the
left branch first; star tries to consume first (greedy), refusing empty body
matches so that iteration always progresses. -/
def reRun (fuel : Nat) (r : RE) (prev : Option Char) (s : List Char)
    (k : Option Char → List Char → Option (List Char)) : Option (List Char) :=
  match fuel with
  | 0 => none
  | fuel + 1 =>
    match r with
    | .eps => k prev s
    | .bos => if prev.isNone then k prev s else none
    | .eos => if s.isEmpty then k prev s else none
    | .wb =>
      let before := match prev with | some c => isWordChar c | none => false
      let after := match s with | c :: _ => isWordChar c | [] => false
      if before != after then k prev s else none
    | .cls p =>
      match s with
      | [] => none
      | c :: t => if p c then k (some c) t else none
    | .seq a b => reRun fuel a prev s (fun p2 s2 => reRun fuel b p2 s2 k)
    | .alt a b =>
      match reRun fuel a prev s k with
      | some res => some res
      | none => reRun fuel b prev s k
    | .star a =>
      match reRun fuel a prev s (fun p2 s2 =>
          if s2.length < s.length then reRun fuel (.star a) p2 s2 k else none) with
      | some res => some res
      | none => k prev s

/-- Preferred match of `r` starting exactly at the current position; returns the
suffix left over after the match. -/
def reMatchAt (r : RE) (prev : Option Char) (s : List Char) : Option (List Char) :=
  reRun ((reSizeOf r + 2) * (s.length + 2) + 2) r prev s (fun _ rest => some rest)

/-- Leftmost search: try positions left to right; at the first matching position
return `(before, matched, after)`. -/
def reSearchFrom (r : RE) (prev : Option Char) (s : List Char) (pre : List Char) :
    Option (List Char × List Char × List Char) :=
  match reMatchAt r prev s with
  | some rest => some (pre.reverse, s.take (s.length - rest.length), rest)
  | none =>
    match s with
    | [] => none
    | c :: t => reSearchFrom r (some c) t (c :: pre)

/-- Leftmost search on a `String`. -/
def reSearch (r : RE) (s : String) : Option (List Char × List Char × List Char) :=
  reSearchFrom r none s.data []

/-- JavaScript `regex.test(s)`. -/
def reTest (r : RE) (s : String) : Bool := (reSearch r s).isSome

/-- JavaScript `s.match(regex)?.[0]` (first match, no global flag). -/
def reFirstMatch (r : RE) (s : String) : Option String :=
  (reSearch r s).map (fun x => String.mk x.2.1)

/-- JavaScript `s.replace(regex, '')` (first match only, no global flag). -/
def reReplaceFirst (r : RE) (s : String) : String :=
  match reSearch r s with
  | some (pre, _, post) => String.mk (pre ++ post)
  | none => s

/-- JavaScript `s.split(regex)` for patterns that cannot match the empty
string; each separator occurrence consumes at least one character, so fuel
`s.length + 1` suffices. -/
def reSplitList (r : RE) (fuel : Nat) (s : List Char) : List String :=
  match fuel with
  | 0 => [String.mk s]
  | fuel + 1 =>
    match reSearchFrom r none s [] with
    | some (pre, m, post) =>
      if m.isEmpty then [String.mk s]
      else String.mk pre :: reSplitList r fuel post
    | none => [String.mk s]

/-- JavaScript `s.split(regex)`. -/
def reSplit (r : RE) (s : String) : List String := reSplitList r (s.length + 1) s.data

/-- Single literal character. -/
def ch (c : Char) : RE := .cls (fun d => d = c)

/-- Single literal character, case-insensitively (`/i` flag). -/
def chi (c : Char) : RE := .cls (fun d => d.toLower = c.toLower)

/-- Character class given by an explicit list. -/
def clsOf (l : List Char) : RE := .cls (fun d => l.contains d)

/-- Concatenation of a list of regexes. -/
def seqList : List RE → RE
  | [] => .eps
  | [r] => r
  | r :: rs => .seq r (seqList rs)

/-- Ordered alternation of a list of regexes (first listed is preferred). -/
def altList : List RE → RE
  | [] => .cls (fun _ => false)
  | [r] => r
  | r :: rs => .alt r (altList rs)

/-- Case-sensitive string literal. -/
def lit (w : String) : RE := seqList (w.data.map ch)

/-- Case-insensitive string literal (`/i` flag). -/
def liti (w : String) : RE := seqList (w.data.map chi)

/-- Greedy `r?`. -/
def reOpt (r : RE) : RE := .alt r .eps

/-- Greedy `r+`. -/
def rePlus (r : RE) : RE := .seq r (.star r)

/-- Exactly `n` copies of `r` (`r{n}`). -/
def repExact : Nat → RE → RE
  | 0, _ => .eps
  | n + 1, r => .seq r (repExact n r)

/-- At most `n` copies of `r`, greedily. -/
def repUpTo : Nat → RE → RE
  | 0, _ => .eps
  | n + 1, r => .alt (.seq r (repUpTo n r)) .eps

/-- `r{lo,hi}`, greedily. -/
def repRange (lo hi : Nat) (r : RE) : RE := .seq (repExact lo r) (repUpTo (hi - lo) r)

/-- `r{n,}`, greedily. -/
def atLeast (n : Nat) (r : RE) : RE := .seq (repExact n r) (.star r)

/-- `\d` (JavaScript: `[0-9]`). -/
def digitC : RE := .cls Char.isDigit

/-- `\s` (ASCII fragment). -/
def wsC : RE := .cls wsChar

/-- `[A-Z]`. -/
def upperC : RE := .cls Char.isUpper

/-- `[a-z]`. -/
def lowerC : RE := .cls Char.isLower

/-- `[A-Za-z]` (also `[a-z]` under the `/i` flag). -/
def letterC : RE := .cls Char.isAlpha

/-- `[^\s]`. -/
def nonWsC : RE := .cls (fun c => !(wsChar c))

/-!
Patterns transcribed from `contentParser.js`.  Each definition quotes the
JavaScript literal it embeds; the line numbers refer to the source file.
-/

/-- Line 276: `/\b[A-Za-z0-9._%+-]+@[A-Za-z0-9.-]+\.[A-Z|a-z]{2,}\b/`. -/
def emailRE : RE :=
  seqList [.wb,
    rePlus (.cls (fun c => c.isAlpha || c.isDigit || c = '.' || c = '_' || c = '%' || c = '+' || c = '-')),
    ch '@',
    rePlus (.cls (fun c => c.isAlpha || c.isDigit || c = '.' || c = '-')),
    ch '.',
    atLeast 2 (.cls (fun c => c.isAlpha || c = '|')),
    .wb]

/-- `[-.\s]?`, shared by the phone patterns. -/
def sepOptC : RE := reOpt (.cls (fun c => c = '-' || c = '.' || wsChar c))

/-- Line 283: `/\+?\d{1,3}[-.\s]?\(?\d{3}\)?[-.\s]?\d{3}[-.\s]?\d{4}/`. -/
def phoneRE1 : RE :=
  seqList [reOpt (ch '+'), repRange 1 3 digitC, sepOptC, reOpt (ch '('),
    repExact 3 digitC, reOpt (ch ')'), sepOptC, repExact 3 digitC, sepOptC, repExact 4 digitC]

/-- Line 284: `/\+?\d{1,3}[-.\s]?\d{3}[-.\s]?\d{3}[-.\s]?\d{4}/`. -/
def phoneRE2 : RE :=
  seqList [reOpt (ch '+'), repRange 1 3 digitC, sepOptC, repExact 3 digitC, sepOptC,
    repExact 3 digitC, sepOptC, repExact 4 digitC]

/-- Line 285: `/\(\d{3}\)\s?\d{3}[-.\s]?\d{4}/`. -/
def phoneRE3 : RE :=
  seqList [ch '(', repExact 3 digitC, ch ')', reOpt wsC, repExact 3 digitC, sepOptC,
    repExact 4 digitC]

/-- Line 296: `/https?:\/\/[^\s]+|www\.[^\s]+/i`. -/
def urlRE : RE :=
  .alt (seqList [liti "http", reOpt (chi 's'), liti "://", rePlus nonWsC])
    (seqList [liti "www.", rePlus nonWsC])

/-- `(?:\s+[A-Z][a-z]+)*`, the multi-word tail of the location patterns. -/
def cityTailRE : RE := .star (seqList [rePlus wsC, upperC, rePlus lowerC])

/-- Line 303: `/([A-Z][a-z]+(?:\s+[A-Z][a-z]+)*),\s*[A-Z]{2}/` (City, State). -/
def locRE1 : RE :=
  seqList [upperC, rePlus lowerC, cityTailRE, ch ',', .star wsC, upperC, upperC]

/-- Line 304: `/([A-Z][a-z]+(?:\s+[A-Z][a-z]+)*),\s*([A-Z][a-z]+)/` (City, Country). -/
def locRE2 : RE :=
  seqList [upperC, rePlus lowerC, cityTailRE, ch ',', .star wsC, upperC, rePlus lowerC]

/-- A phrase of words separated by `\s+`, case-insensitively. -/
def phraseI (ws : List String) : RE := seqList (List.intersperse (rePlus wsC) (ws.map liti))

/-- A full-line, `^(..|..)$`-anchored alternation. -/
def fullLineI (alts : List RE) : RE := seqList [.bos, altList alts, .eos]

/-- Line 332, segmenter key `personalStatement` (full line, `/i`). -/
def psSectionRE : RE :=
  fullLineI [phraseI ["personal", "statement"], liti "summary", phraseI ["professional", "summary"],
    liti "about", liti "profile", liti "objective", phraseI ["executive", "summary"],
    phraseI ["professional", "summary"], phraseI ["summary", "of", "qualifications"],
    phraseI ["career", "summary"], liti "overview"]

/-- Line 333, segmenter key `workExperience` (full line, `/i`). -/
def weSectionRE : RE :=
  fullLineI [phraseI ["work", "experience"], liti "experience", liti "employment",
    phraseI ["professional", "experience"], phraseI ["career", "history"],
    phraseI ["professional", "experience"], phraseI ["work", "history"],
    phraseI ["employment", "history"]]

/-- Line 334, segmenter key `skills` (full line, `/i`). -/
def skSectionRE : RE :=
  fullLineI [liti "skills", phraseI ["technical", "skills"], phraseI ["core", "competencies"],
    liti "competencies", phraseI ["key", "skills"], phraseI ["core", "skills"],
    phraseI ["technical", "proficiencies"], phraseI ["core", "skills"]]

/-- Line 335, segmenter key `education` (full line, `/i`). -/
def edSectionRE : RE :=
  fullLineI [liti "education", phraseI ["academic", "background"], liti "qualifications",
    liti "academic"]

/-- Lines 373/414/428/899: `/^[⸻\-_=]+$/`, the divider-line test. -/
def dividerRE : RE := seqList [.bos, rePlus (clsOf ['⸻', '-', '_', '=']), .eos]

/-- Line 353: `/^[A-Z\s\-]+$/`. -/
def capsLineRE : RE :=
  seqList [.bos, rePlus (.cls (fun c => c.isUpper || wsChar c || c = '-')), .eos]

/-- Line 355: `/\d{3}[-.\s]?\d{3}[-.\s]?\d{4}/`. -/
def phoneLikeRE : RE :=
  seqList [repExact 3 digitC, sepOptC, repExact 3 digitC, sepOptC, repExact 4 digitC]

/-- Line 356: `/^[A-Z][a-z]+/`. -/
def upLowStartRE : RE := seqList [.bos, upperC, rePlus lowerC]

/-- `[-–]` (hyphen or en dash), shared by the date patterns. -/
def dashC : RE := clsOf ['-', '–']

/-- Line 1136: `/\d{4}\s*[-–]\s*\d{4}/`. -/
def dateRange1RE : RE :=
  seqList [repExact 4 digitC, .star wsC, dashC, .star wsC, repExact 4 digitC]

/-- Line 1137: `/\d{4}\s*[-–]\s*Present/i`. -/
def dateRange2RE : RE :=
  seqList [repExact 4 digitC, .star wsC, dashC, .star wsC, liti "Present"]

/-- Line 1138: `/(Jan|Feb|Mar|Apr|May|Jun|Jul|Aug|Sep|Oct|Nov|Dec)[a-z]*\s+\d{4}/i`
(under `/i`, `[a-z]` matches any letter). -/
def monthRE : RE :=
  seqList [altList ((["Jan", "Feb", "Mar", "Apr", "May", "Jun", "Jul", "Aug", "Sep",
    "Oct", "Nov", "Dec"]).map liti), .star letterC, rePlus wsC, repExact 4 digitC]

/-- Line 1139: `/\d{1,2}\/\d{4}/`. -/
def slashDateRE : RE := seqList [repRange 1 2 digitC, ch '/', repExact 4 digitC]

/-- Lines 1134-1142, `isDate`: some pattern in the list matches. -/
def isDate (text : String) : Bool :=
  reTest dateRange1RE text || reTest dateRange2RE text || reTest monthRE text ||
    reTest slashDateRE text

/-- Lines 724/731/927/959/978/1024:
`/\d{4}\s*[-–]\s*\d{4}|\d{4}\s*[-–]\s*Present/i`, the date-range extractor. -/
def dateRangeRE : RE := .alt dateRange1RE dateRange2RE

/-- Lines 1148-1153, the standalone `isSectionHeader` helper (five full-line
alternations, all `/i`). -/
def isSectionHeader (line : String) : Bool :=
  reTest (fullLineI [phraseI ["work", "experience"], liti "experience", liti "employment",
    phraseI ["professional", "experience"], phraseI ["career", "history"],
    phraseI ["professional", "experience"]]) line ||
  reTest (fullLineI [liti "skills", phraseI ["technical", "skills"],
    phraseI ["core", "competencies"], liti "competencies", phraseI ["key", "skills"],
    phraseI ["core", "skills"]]) line ||
  reTest (fullLineI [liti "education", phraseI ["academic", "background"],
    liti "qualifications"]) line ||
  reTest (fullLineI [phraseI ["personal", "statement"], liti "summary",
    phraseI ["professional", "summary"], liti "about", liti "profile", liti "objective"]) line ||
  reTest (fullLineI [liti "projects", liti "prototypes", liti "certifications",
    liti "awards"]) line

/-- The bullet-glyph class `[•\-\*▪▫◦‣⁃]` of lines 532/533/765/779/863. -/
def bulletC : RE := clsOf ['•', '-', '*', '▪', '▫', '◦', '‣', '⁃']

/-- `[\.\)]`, the tail of a numbered bullet. -/
def dotParenC : RE := clsOf ['.', ')']

/-- Lines 532/863: `/^[•\-\*▪▫◦‣⁃]|\d+[\.\)]/` — note that only the first
alternative is anchored, so any digit run followed by `.` or `)` anywhere in
the line satisfies the test. -/
def bulletStartRE : RE := .alt (.seq .bos bulletC) (.seq (rePlus digitC) dotParenC)

/-- Line 533: `/^\s{1,8}[•\-\*▪▫◦‣⁃]/`. -/
def spacedBulletRE : RE := seqList [.bos, repRange 1 8 wsC, bulletC]

/-- Line 534: `/^\s{1,8}\d+[\.\)]/`. -/
def spacedNumRE : RE := seqList [.bos, repRange 1 8 wsC, rePlus digitC, dotParenC]

/-- Line 576: `/engineer|manager|director|analyst|developer|designer|strategist|producer|specialist|coordinator|lead|senior|junior/i`. -/
def jobTitleWordsRE : RE :=
  altList ((["engineer", "manager", "director", "analyst", "developer", "designer",
    "strategist", "producer", "specialist", "coordinator", "lead", "senior",
    "junior"]).map liti)

/-- Lines 636/653: `/[📍·•]|Remote|On-site|Hybrid|\d{4}\s*[-–]/` (case-sensitive). -/
def locDateMarkRE : RE :=
  altList [clsOf ['📍', '·', '•'], lit "Remote", lit "On-site", lit "Hybrid",
    seqList [repExact 4 digitC, .star wsC, dashC]]

/-- Line 722: `/Remote|On-site|Hybrid/` (case-sensitive). -/
def remoteRE : RE := altList [lit "Remote", lit "On-site", lit "Hybrid"]

/-- Lines 734-735: `/Remote|On-site|Hybrid/i` and `/(Remote|On-site|Hybrid)/i`. -/
def remoteIRE : RE := altList [liti "Remote", liti "On-site", liti "Hybrid"]

/-- Line 738: `/([A-Z][a-z]+(?:\s+[A-Z][a-z]+)*),\s*[A-Z]{2}/`, identical to the
contact-info City, State pattern. -/
def cityStateRE : RE := locRE1

/-- Line 743: `/\d{4}/`, used through `split`. -/
def year4RE : RE := repExact 4 digitC

/-- Line 573: `/\s+-\s+/`, the dash-format splitter. -/
def dashSplitRE : RE := seqList [rePlus wsC, ch '-', rePlus wsC]

/-- Line 824: `/\n\n+/`, the blank-line paragraph splitter of the fallback pass. -/
def blankLineSplitRE : RE := .seq (ch '\n') (rePlus (ch '\n'))

/-- Line 794: `/^\s{2,8}/`, the indented-continuation test. -/
def indent28RE : RE := seqList [.bos, repRange 2 8 wsC]

/-- Line 765: `/^\s*[•\-\*▪▫◦‣⁃]\s*/`. -/
def bulletStripRE1 : RE := seqList [.bos, .star wsC, bulletC, .star wsC]

/-- Line 766: `/^\s*\d+[\.\)]\s*/`. -/
def bulletStripRE2 : RE := seqList [.bos, .star wsC, rePlus digitC, dotParenC, .star wsC]

/-- Line 767: `/^\t+/`. -/
def tabStripRE : RE := seqList [.bos, rePlus (ch '\t')]

/-- Line 864: `/^[•\-\*▪▫◦‣⁃\d+\.\)]\s*/` — one character from a class that also
contains digits, `+`, `.` and `)`, then optional whitespace. -/
def fbStripRE : RE :=
  seqList [.bos,
    .cls (fun c => (['•', '-', '*', '▪', '▫', '◦', '‣', '⁃'] : List Char).contains c ||
      c.isDigit || c = '+' || c = '.' || c = ')'),
    .star wsC]

/-- Line 905: `/B\.?S\.?|B\.?A\.?|M\.?S\.?|M\.?A\.?|Ph\.?D\.?|Bachelor|Master|Doctorate|Associate|B\.?Sc\.?|B\.?Eng\.?|B\.?Comm\.?/i`. -/
def degreeRE : RE :=
  altList [seqList [chi 'B', reOpt (ch '.'), chi 'S', reOpt (ch '.')],
    seqList [chi 'B', reOpt (ch '.'), chi 'A', reOpt (ch '.')],
    seqList [chi 'M', reOpt (ch '.'), chi 'S', reOpt (ch '.')],
    seqList [chi 'M', reOpt (ch '.'), chi 'A', reOpt (ch '.')],
    seqList [liti "Ph", reOpt (ch '.'), chi 'D', reOpt (ch '.')],
    liti "Bachelor", liti "Master", liti "Doctorate", liti "Associate",
    seqList [chi 'B', reOpt (ch '.'), liti "Sc", reOpt (ch '.')],
    seqList [chi 'B', reOpt (ch '.'), liti "Eng", reOpt (ch '.')],
    seqList [chi 'B', reOpt (ch '.'), liti "Comm", reOpt (ch '.')]]

/-- Line 906: `/Certificate|Certification|Diploma|Bootcamp|Immersive|Program|Course|Training/i`. -/
def certificateRE : RE :=
  altList ((["Certificate", "Certification", "Diploma", "Bootcamp", "Immersive",
    "Program", "Course", "Training"]).map liti)

/-- Lines 909/912: `/University|College|School|Institute|Academy/i`. -/
def institutionRE : RE :=
  altList ((["University", "College", "School", "Institute", "Academy"]).map liti)

/-- Line 1067/1076: `/:\s*[A-Z]/` (case-sensitive). -/
def labelColonRE : RE := seqList [ch ':', .star wsC, upperC]

/-- Line 1076: `/:\s*$/`. -/
def trailColonRE : RE := seqList [ch ':', .star wsC, .eos]

/-- Lines 1090/1092: `/^[•\-\*▪▫◦‣⁃]\s*/`. -/
def skillsStripRE : RE := seqList [.bos, bulletC, .star wsC]

/-- Line 1112: `/^[•\-\*▪▫◦‣⁃\t]\s*/`. -/
def skillsStripTabRE : RE :=
  seqList [.bos, clsOf ['•', '-', '*', '▪', '▫', '◦', '‣', '⁃', '\t'], .star wsC]

/-- `(\d+\.?\d*)`, the numeric capture group of the GPA pattern (line 972). -/
def gpaNumRE : RE := seqList [rePlus digitC, reOpt (ch '.'), .star digitC]

/-- First alternative of `/(\d+\.?\d*)\s*GPA|GPA[:\s]+(\d+\.?\d*)/i` tried at one
position: the number capture, then `\s*GPA`.  Matching the number maximally and
then the tail separately is equivalent to full backtracking here, because no
character the number part could give back (digit or dot) can start `\s*GPA`. -/
def gpaAlt1At (prev : Option Char) (s : List Char) : Option String :=
  match reMatchAt gpaNumRE prev s with
  | some rest =>
    match reMatchAt (seqList [.star wsC, liti "GPA"]) none rest with
    | some _ => some (String.mk (s.take (s.length - rest.length)))
    | none => none
  | none => none

/-- Second alternative, `GPA[:\s]+(\d+\.?\d*)`, tried at one position; the
separator class `[:\s]` shares no characters with the digits that follow, so
maximal munch is again equivalent to full backtracking. -/
def gpaAlt2At (prev : Option Char) (s : List Char) : Option String :=
  match reMatchAt (seqList [liti "GPA", rePlus (.cls (fun c => c = ':' || wsChar c))]) prev s with
  | some rest =>
    match reMatchAt gpaNumRE none rest with
    | some rest2 => some (String.mk (rest.take (rest.length - rest2.length)))
    | none => none
  | none => none

/-- Leftmost scan for the GPA pattern; at each position the first alternative is
preferred, matching JavaScript, and the participating capture group
(`gpaMatch[1] || gpaMatch[2]`, lines 972-974) is returned. -/
def gpaScan : Option Char → List Char → Option String
  | prev, s =>
    match gpaAlt1At prev s with
    | some g => some g
    | none =>
      match gpaAlt2At prev s with
      | some g => some g
      | none =>
        match s with
        | [] => none
        | c :: t => gpaScan (some c) t

/-- Lines 972/1029: GPA extraction, `gpaMatch[1] || gpaMatch[2]`. -/
def gpaExtract (s : String) : Option String := gpaScan none s.data

/-!
Data model.  Fields that JavaScript may leave `null`/absent are `Option`s; the
record shape follows the objects built by `contentParser.js`.
-/

/-- `contactInfo` object built by `extractContactInfo` (lines 259-265). -/
structure ContactInfo where
  name : Option String
  email : Option String
  phone : Option String
  location : Option String
  website : Option String
deriving DecidableEq, Repr

/-- Work-experience entry (lines 668-674/751-757). -/
structure Experience where
  company : String
  title : String
  date : String
  location : String
  bullets : List String
deriving DecidableEq, Repr

/-- Education entry (lines 933-939/1008-1014/1034-1040).  `certificate` mirrors
`certificate || null`. -/
structure EducationEntry where
  school : String
  degree : String
  date : String
  gpa : String
  certificate : Option String
deriving DecidableEq, Repr

/-- The `sections` accumulator of `extractSections` (lines 323-329). -/
structure SectionsAcc where
  personalStatement : Option String
  workExperience : List String
  skills : Option String
  education : List String
  other : List String
deriving DecidableEq, Repr

/-- Result record of `parseResumeContent`.  `success` is an `Option` because the
empty-input return `{ error: 'Resume text is empty' }` (line 184) carries no
`success` property at all, unlike the `success: true` record of line 236;
list-valued fields of absent shape are modelled as `[]` and the remaining
absent fields as `none`. -/
structure ParseResult where
  success : Option Bool
  error : Option String
  contactInfo : Option ContactInfo
  personalStatement : Option String
  workExperience : List Experience
  skills : Option String
  education : List EducationEntry
  otherSections : List String
  rawText : Option String
deriving DecidableEq, Repr

/-- Try a list of patterns in order, returning the first pattern's first match
(the `for .. of` loops with `break` at lines 287-293 and 306-312). -/
def firstPatternMatch : List RE → String → Option String
  | [], _ => none
  | r :: rs, s =>
    match reFirstMatch r s with
    | some m => some m
    | none => firstPatternMatch rs s

/-- `extractContactInfo` (lines 258-315).  `lines` is the list of non-blank
trimmed lines; the first becomes `name`, and the first five joined with spaces
are scanned for the remaining fields. -/
def extractContactInfo (lines : List String) : ContactInfo :=
  let headerLines := joinSep " " (lines.take 5)
  { name := lines.head?
    email := reFirstMatch emailRE headerLines
    phone := firstPatternMatch [phoneRE1, phoneRE2, phoneRE3] headerLines
    location := firstPatternMatch [locRE1, locRE2] headerLines
    website := reFirstMatch urlRE headerLines }

/-- The four segmenter keys (line 331). -/
inductive SectionKey where
  | personalStatement | workExperience | skills | education
deriving DecidableEq, Repr

/-- Ordered test of the four `sectionPatterns` (lines 331-336, iterated at line
381 in object order). -/
def matchSectionKey (line : String) : Option SectionKey :=
  if reTest psSectionRE line then some .personalStatement
  else if reTest weSectionRE line then some .workExperience
  else if reTest skSectionRE line then some .skills
  else if reTest edSectionRE line then some .education
  else none

/-- Line 350-356: a header-scan line that "looks like a section header". -/
def looksLikeSectionHeader (line : String) : Bool :=
  line ≠ "" && decide (line.length < 50) && decide (line.length > 3) &&
    reTest capsLineRE line && !(hasChar line '@') && !(reTest phoneLikeRE line) &&
    !(reTest upLowStartRE line)

/-- Line 358: the header scan stops at a section-header-like line that is not a
summary synonym. -/
def headerScanStop (line : String) : Bool :=
  looksLikeSectionHeader line && !(reTest psSectionRE line)

/-- Header-region scan (lines 347-363): walk `i` while `fuel` iterations
remain (`fuel` starts at the loop bound `min(8, length)`, so it reaches `0`
exactly when `i` reaches the bound); stop before the first header-like line,
otherwise record `i` as the current header end. -/
def headerEndGo (trimmeds : List String) (fuel i acc : Nat) : Nat :=
  match fuel with
  | 0 => acc
  | fuel + 1 =>
    if headerScanStop (trimmeds.getD i "") then acc
    else headerEndGo trimmeds fuel (i + 1) i

/-- `headerEndIndex` of lines 343-363 (the loop bound is `min(8, length)`). -/
def headerEnd (trimmeds : List String) : Nat :=
  headerEndGo trimmeds (min 8 trimmeds.length) 0 0

/-- Closing a section when a new header is met or input ends (lines 386-397 and
461-472): work-experience and education blocks accumulate in lists; summary and
skills keep the last non-empty trimmed join. -/
def saveSection (cur : Option SectionKey) (content : List String) (acc : SectionsAcc) :
    SectionsAcc :=
  match cur with
  | none => acc
  | some k =>
    if content.isEmpty then acc
    else
      match k with
      | .workExperience => { acc with workExperience := acc.workExperience ++ [joinSep "\n" content] }
      | .education => { acc with education := acc.education ++ [joinSep "\n" content] }
      | .personalStatement =>
        let c := jsTrim (joinSep "\n" content)
        if c = "" then acc else { acc with personalStatement := some c }
      | .skills =>
        let c := jsTrim (joinSep "\n" content)
        if c = "" then acc else { acc with skills := some c }

/-- Handler for a line met while no section is open (lines 424-455).  The code
computes `isSubstantialText = trimmedLine.length > 10 && !isDate(trimmedLine)`
at line 429 but never uses it; the applied test is `length > 8` with no date
check.  A qualifying line is appended to the speculative summary; otherwise a
non-blank line goes to `other`. -/
def noSectionStep (hdrEnd i : Nat) (orig trl : String) (acc : SectionsAcc) : SectionsAcc :=
  let isNotASectionHeader := (matchSectionKey trl).isNone
  let isNotADivider := !(reTest dividerRE trl)
  let isBeforeFirstSection := decide (i < hdrEnd + 30)
  let isSubstantialEnough := decide (trl.length > 8)
  if isBeforeFirstSection && isSubstantialEnough && isNotASectionHeader && isNotADivider then
    match acc.personalStatement with
    | none => { acc with personalStatement := some trl }
    | some s => { acc with personalStatement := some (s ++ " " ++ trl) }
  else if trl ≠ "" then { acc with other := acc.other ++ [orig] }
  else acc

/-- Main segmentation loop (lines 368-458) over `(original, trimmed)` line
pairs starting at index `hdrEnd + 1`.  Divider lines are skipped outright
(line 373); a header line closes the current block and opens a new one; inside
the summary block even blank originals are kept (the inner divider re-test of
line 414 can never fire because dividers were already skipped), other blocks
keep only non-blank lines; with no block open, `noSectionStep` applies. -/
def sectionsLoop (hdrEnd i : Nat) (rows : List (String × String))
    (cur : Option SectionKey) (content : List String) (acc : SectionsAcc) : SectionsAcc :=
  match rows with
  | [] => saveSection cur content acc
  | (orig, trl) :: rest =>
    if reTest dividerRE trl then sectionsLoop hdrEnd (i + 1) rest cur content acc
    else
      match matchSectionKey trl with
      | some key => sectionsLoop hdrEnd (i + 1) rest (some key) [] (saveSection cur content acc)
      | none =>
        match cur with
        | some k =>
          if k = .personalStatement then
            sectionsLoop hdrEnd (i + 1) rest cur (content ++ [orig]) acc
          else if trl ≠ "" then sectionsLoop hdrEnd (i + 1) rest cur (content ++ [orig]) acc
          else sectionsLoop hdrEnd (i + 1) rest cur content acc
        | none => sectionsLoop hdrEnd (i + 1) rest cur content (noSectionStep hdrEnd i orig trl acc)

/-- `extractSections` (lines 322-489): header-region detection, the main loop,
the final save, and the empty-summary cleanup of lines 475-478. -/
def extractSections (originalLines trimmedLines : List String) : SectionsAcc :=
  let hdrEnd := headerEnd trimmedLines
  let rows := (originalLines.zip trimmedLines).drop (hdrEnd + 1)
  let acc := sectionsLoop hdrEnd (hdrEnd + 1) rows none [] ⟨none, [], none, [], []⟩
  match acc.personalStatement with
  | some s => if jsTrim s = "" then { acc with personalStatement := none } else acc
  | none => acc

/-!
Work-experience extraction (`extractWorkExperience`, lines 494-879).  A block
becomes a list of `(trimmed, original)` pairs (`allLines` /
`originalLineByIndex`, lines 506-517); the scan state is the open experience,
its pending bullets, and the experiences pushed so far (the `experiences`
array is shared across blocks, line 501).
-/

/-- Detection result of the pipe/dash pre-pass (lines 544-546). -/
structure Detected where
  title : Option String
  company : Option String
  date : Option String
deriving DecidableEq, Repr

/-- Line 549: `line.split('|').map(p => p.trim()).filter(p => p)`. -/
def pipeParts (line : String) : List String :=
  ((jsSplitChar '|' line).map jsTrim).filter (fun p => p ≠ "")

/-- The `forEach` of lines 552-562: a date part fills `date`; otherwise index 0
fills `title` and index 1 fills `company` (the extra `!isDate(part)` guards are
redundant under the `else if` chain). -/
def pipeAssignFold (parts : List String) : Detected :=
  (parts.foldl (fun (acc : Detected × Nat) part =>
    let d := acc.1
    let idx := acc.2
    (if isDate part then ⟨d.title, d.company, some part⟩
     else if idx = 0 then ⟨some part, d.company, d.date⟩
     else if idx = 1 then ⟨d.title, some part, d.date⟩
     else d, idx + 1)) (⟨none, none, none⟩, 0)).1

/-- Pipe-format detection (lines 548-570).  With three or more parts the
positional override of lines 565-569 applies: `title = parts[0]`,
`company = parts[1]`, `date = parts[2] || detectedDate`, and `parts[2]` is
never empty after the filter, so the earlier date detection is discarded. -/
def pipeDetected (line : String) : Detected :=
  let parts := pipeParts line
  if parts.length ≥ 2 then
    if parts.length ≥ 3 then ⟨some (parts.getD 0 ""), some (parts.getD 1 ""), some (parts.getD 2 "")⟩
    else pipeAssignFold parts
  else ⟨none, none, none⟩

/-- Line 573: split on `/\s+-\s+/`, trim, drop empties. -/
def dashParts (line : String) : List String :=
  ((reSplit dashSplitRE line).map jsTrim).filter (fun p => p ≠ "")

/-- Dash-format detection (lines 571-601): with two parts, the job-title
keyword set decides which part is the company; when both or neither part
matches, the strictly shorter part is the company (the second part on ties). -/
def dashDetected (line : String) : Detected :=
  match dashParts line with
  | first :: second :: _ =>
    if reTest jobTitleWordsRE first && !(reTest jobTitleWordsRE second) then
      ⟨some first, some second, none⟩
    else if !(reTest jobTitleWordsRE first) && reTest jobTitleWordsRE second then
      ⟨some second, some first, none⟩
    else if first.length < second.length then ⟨some second, some first, none⟩
    else ⟨some first, some second, none⟩
  | _ => ⟨none, none, none⟩

/-- Bullet test of lines 531-535: bullet glyph or digits-dot anywhere in the
trimmed line, a 1-8-space-indented glyph or numbered marker in the original
line, or a leading tab. -/
def isBulletLine (line originalLine : String) : Bool :=
  reTest bulletStartRE (jsTrim line) || reTest spacedBulletRE originalLine ||
    reTest spacedNumRE originalLine || strStartsWith originalLine "\t"

/-- Bullet-marker strip of lines 764-768: glyph strip, then numbered strip,
then leading tabs, then trim. -/
def bulletStrip (originalLine : String) : String :=
  jsTrim (reReplaceFirst tabStripRE (reReplaceFirst bulletStripRE2
    (reReplaceFirst bulletStripRE1 originalLine)))

/-- `isLikelyCompany` (lines 611-622): a non-bullet line of plausible length,
not a date or section header, with a next line that does not start like a
bullet. -/
def isLikelyCompanyAt (rows : List (String × String)) (i : Nat) (line : String)
    (isBullet : Bool) : Bool :=
  let next1 := (rows.getD (i + 1) ("", "")).1
  !isBullet && decide (line.length < 80) && decide (line.length > 2) &&
    !(strStartsWith line "•") && !(strStartsWith line "-") && !(strStartsWith line "\t") &&
    !(isDate line) && !(isSectionHeader line) && decide (i + 1 < rows.length) &&
    !(strStartsWith next1 "•") && !(strStartsWith next1 "-") && !(strStartsWith next1 "\t")

/-- Scan state of the work-experience loop (lines 519-520 plus the shared
`experiences` array). -/
structure WEState where
  currentExp : Option Experience
  currentBullets : List String
  experiences : List Experience
deriving DecidableEq, Repr

/-- Append a bullet to the last pushed experience (lines 776-790). -/
def pushLastBullet (es : List Experience) (b : String) : List Experience :=
  match es.reverse with
  | [] => es
  | e :: rest => ({ e with bullets := e.bullets ++ [b] } :: rest).reverse

/-- Title capture after a new company line (lines 706-716): the next line
becomes the title unless it starts like a bullet, is a date, or is a section
header; returns the title and the updated index. -/
def weTitleStep (rows : List (String × String)) (i : Nat) : String × Nat :=
  if i + 1 < rows.length then
    let nx := (rows.getD (i + 1) ("", "")).1
    if !(strStartsWith nx "•") && !(strStartsWith nx "-") && !(strStartsWith nx "\t") &&
        !(isDate nx) && !(isSectionHeader nx) then (nx, i + 1)
    else ("", i)
  else ("", i)

/-- Location/date capture (lines 719-749): if the following line looks like a
location or date line, extract the date-range match, strip pin/dot characters
and the date from the line, then prefer a Remote/On-site/Hybrid token, else a
City, ST match, else the text before the first four-digit group. -/
def weLocDateStep (rows : List (String × String)) (i1 : Nat) : String × String × Nat :=
  if i1 + 1 < rows.length then
    let nx := (rows.getD (i1 + 1) ("", "")).1
    if isDate nx || hasChar nx '📍' || hasChar nx '·' || reTest remoteRE nx then
      let date := (reFirstMatch dateRangeRE nx).getD ""
      let locationText := jsTrim (reReplaceFirst dateRangeRE (removeChars nx ['📍', '·']))
      let location :=
        if reTest remoteIRE locationText then (reFirstMatch remoteIRE locationText).getD ""
        else
          match reFirstMatch cityStateRE locationText with
          | some m => m
          | none => jsTrim ((reSplit year4RE locationText).headD "")
      (date, location, i1 + 1)
    else ("", "", i1)
  else ("", "", i1)

/-- One iteration of the work-experience `while` loop (lines 523-808),
returning the new state and the next index. -/
def weStep (rows : List (String × String)) (i : Nat) (st : WEState) : WEState × Nat :=
  let n := rows.length
  let line := (rows.getD i ("", "")).1
  let orig0 := (rows.getD i ("", "")).2
  let originalLine := if orig0 = "" then line else orig0
  let isBullet := isBulletLine line originalLine
  let pipeFormat := containsSub line "|"
  let dashFormat := containsSub line " - " && !(isDate line)
  let det :=
    if pipeFormat then pipeDetected line
    else if dashFormat then dashDetected line
    else (⟨none, none, none⟩ : Detected)
  let next1 := (rows.getD (i + 1) ("", "")).1
  let next2 := (rows.getD (i + 2) ("", "")).1
  let isLikelyCompany := isLikelyCompanyAt rows i line isBullet
  let looksLikeNewCompany :=
    isLikelyCompany && decide (i + 2 < n) &&
      (decide (next1.length > line.length) && !(isDate next1) && !(strStartsWith next1 "•") &&
        !(strStartsWith next1 "-") && !(strStartsWith next1 "\t")) &&
      (reTest locDateMarkRE next2 || isDate next2)
  let isNewCompanyAfterBullets :=
    st.currentExp.isSome && !st.currentBullets.isEmpty && isLikelyCompany &&
      decide (i + 2 < n) &&
      (decide (next1.length > line.length) && !(isDate next1) && !(strStartsWith next1 "•") &&
        !(strStartsWith next1 "-")) &&
      (reTest locDateMarkRE next2 || isDate next2)
  let pushed :=
    match st.currentExp with
    | some e => st.experiences ++ [{ e with bullets := st.currentBullets }]
    | none => st.experiences
  if (pipeFormat || dashFormat) && det.company.isSome then
    (⟨some ⟨det.company.getD "", det.title.getD "", det.date.getD "", "", []⟩, [], pushed⟩, i + 1)
  else
    let isDashFormatCompany := dashFormat && det.company.isSome &&
      (match st.currentExp, det.company with
       | some e, some c => decide (c ≠ e.company)
       | _, _ => false)
    if isDashFormatCompany || (isLikelyCompany && (looksLikeNewCompany || isNewCompanyAfterBullets)) ||
        (isLikelyCompany && st.currentExp.isNone) then
      let ts := weTitleStep rows i
      let ld := weLocDateStep rows ts.2
      (⟨some ⟨line, ts.1, ld.1, ld.2.1, []⟩, [], pushed⟩, ld.2.2 + 1)
    else if isBullet then
      match st.currentExp with
      | some _ =>
        let b := bulletStrip originalLine
        if b ≠ "" then ({ st with currentBullets := st.currentBullets ++ [b] }, i + 1)
        else (st, i + 1)
      | none =>
        if st.experiences ≠ [] then
          let b := bulletStrip originalLine
          if b ≠ "" then ({ st with experiences := pushLastBullet st.experiences b }, i + 1)
          else (st, i + 1)
        else (st, i + 1)
    else
      match st.currentExp with
      | some e =>
        if line.length > 0 then
          let isIndentedBullet := reTest indent28RE originalLine && decide (line.length < 150) &&
            !(isDate line) && !(isSectionHeader line)
          if isIndentedBullet then ({ st with currentBullets := st.currentBullets ++ [line] }, i + 1)
          else if e.title = "" then ({ st with currentExp := some { e with title := line } }, i + 1)
          else (st, i + 1)
        else (st, i + 1)
      | none => (st, i + 1)

/-- The `while` loop itself; every iteration advances the index by at least
one, so fuel `rows.length + 1` is never exhausted. -/
def weLoop (rows : List (String × String)) (fuel i : Nat) (st : WEState) : WEState :=
  match fuel with
  | 0 => st
  | fuel + 1 =>
    if i < rows.length then
      let next := weStep rows i st
      weLoop rows fuel next.2 next.1
    else st

/-- One entry of the degraded fallback pass (lines 826-874): a blank-line
paragraph is split on `|` or classified by date lines, glyph-marked bullets are
stripped, and the entry is kept when a title or company was found.  The object
pushed at line 867 has no `location` property; the field is modelled as `""`. -/
def fbEntry (entry : String) : List Experience :=
  let lines := (splitLines entry).filter (fun l => jsTrim l ≠ "")
  match lines with
  | [] => []
  | firstLine :: restLines =>
    let tcdb :=
      if hasChar firstLine '|' then
        let parts := (jsSplitChar '|' firstLine).map jsTrim
        (parts.getD 0 "", parts.getD 1 "", parts.getD 2 "", restLines)
      else
        match restLines with
        | [] => (firstLine, "", "", [])
        | second :: rest2 =>
          if isDate second then (firstLine, "", second, rest2)
          else
            match rest2 with
            | third :: rest3 =>
              if isDate third then (firstLine, second, third, rest3)
              else (firstLine, second, "", rest2)
            | [] => (firstLine, second, "", rest2)
    let title := tcdb.1
    let company := tcdb.2.1
    let date := tcdb.2.2.1
    let bullets := tcdb.2.2.2
    let extractedBullets :=
      (bullets.filter (fun l => reTest bulletStartRE (jsTrim l))).map
        (fun l => jsTrim (reReplaceFirst fbStripRE l))
    if title ≠ "" || company ≠ "" then
      [⟨company, title, date, "", if extractedBullets ≠ [] then extractedBullets else bullets⟩]
    else []

/-- Fallback pass over blank-line-separated paragraphs (lines 823-875). -/
def weFallback (sectionText : String) : List Experience :=
  ((reSplit blankLineSplitRE sectionText).filter (fun e => jsTrim e ≠ "")).foldl
    (fun acc entry => acc ++ fbEntry entry) []

/-- Process one work-experience block (the `forEach` body, lines 503-876):
run the state machine from the experiences accumulated so far, push the last
open experience, and when the accumulated list is still empty fall back to the
paragraph pass. -/
def weSection (experiencesIn : List Experience) (sectionText : String) : List Experience :=
  let originalLines := splitLines sectionText
  let rows := originalLines.filterMap (fun o =>
    let t := jsTrim o
    if t = "" then none else some (t, o))
  let stF := weLoop rows (rows.length + 1) 0 ⟨none, [], experiencesIn⟩
  let experiences :=
    match stF.currentExp with
    | some e => stF.experiences ++ [{ e with bullets := stF.currentBullets }]
    | none => stF.experiences
  if experiences = [] then weFallback sectionText else experiences

/-- `extractWorkExperience` (lines 494-879). -/
def extractWorkExperience (workExpSections : List String) : List Experience :=
  workExpSections.foldl weSection []

/-!
Education extraction (`extractEducation`, lines 884-1049).
-/

/-- Line 909: a standalone certificate matches the certificate keywords and
none of the institution keywords. -/
def isStandaloneCertificate (line : String) : Bool :=
  reTest certificateRE line && !(reTest institutionRE line)

/-- Line 912-919: institution keyword, or a medium-length unclassified line
with at least one following line. -/
def isLikelySchool (line : String) (rest : List String) : Bool :=
  reTest institutionRE line ||
    (decide (line.length > 5) && decide (line.length < 60) &&
      !(strStartsWith line "•") && !(strStartsWith line "-") &&
      !(isDate line) && !(hasChar line '·') && !(reTest certificateRE line) &&
      !rest.isEmpty)

/-- Standalone-certificate record (lines 921-939): the whole line is the
certificate; an embedded date range is moved to `date` and removed from the
certificate text. -/
def standaloneCert (line : String) : EducationEntry :=
  match reFirstMatch dateRangeRE line with
  | some d => ⟨"", "", d, "", some (jsTrim (stringReplaceFirst line d))⟩
  | none => ⟨"", "", "", "", some line⟩

/-- Standalone-degree record (lines 1015-1041). -/
def standaloneDegree (line : String) : EducationEntry :=
  ⟨"", line, (reFirstMatch dateRangeRE line).getD "", (gpaExtract line).getD "", none⟩

/-- School branch (lines 940-1014): consume up to two following lines as
certificate / degree (with GPA and date) / date, returning the entry and the
unconsumed remainder of the block. -/
def schoolConsume (school : String) (rest : List String) : EducationEntry × List String :=
  match rest with
  | [] => (⟨school, "", "", "", none⟩, [])
  | next :: rest2 =>
    if reTest certificateRE next && !(reTest degreeRE next) then
      match reFirstMatch dateRangeRE next with
      | some d => (⟨school, "", d, "", some next⟩, rest2)
      | none =>
        match rest2 with
        | after :: rest3 =>
          if isDate after then (⟨school, "", after, "", some next⟩, rest3)
          else (⟨school, "", "", "", some next⟩, rest2)
        | [] => (⟨school, "", "", "", some next⟩, rest2)
    else if reTest degreeRE next && !(reTest certificateRE next) then
      let gpa := (gpaExtract next).getD ""
      let date := (reFirstMatch dateRangeRE next).getD ""
      match rest2 with
      | after :: rest3 =>
        if reTest certificateRE after && !(reTest degreeRE after) then
          (⟨school, next, date, gpa, some after⟩, rest3)
        else if isDate after && date = "" then
          (⟨school, next, after, gpa, none⟩, rest3)
        else (⟨school, next, date, gpa, none⟩, rest2)
      | [] => (⟨school, next, date, gpa, none⟩, rest2)
    else if isDate next then (⟨school, "", next, "", none⟩, rest2)
    else if !(reTest certificateRE next) then (⟨school, next, "", "", none⟩, rest2)
    else (⟨school, "", "", "", none⟩, rest)

/-- The per-block `while` loop (lines 894-1045); every iteration consumes at
least one line, so fuel equal to the block length suffices. -/
def eduLoop (fuel : Nat) (l : List String) : List EducationEntry :=
  match fuel with
  | 0 => []
  | fuel + 1 =>
    match l with
    | [] => []
    | line :: rest =>
      if isSectionHeader line || reTest dividerRE line then eduLoop fuel rest
      else if isStandaloneCertificate line then standaloneCert line :: eduLoop fuel rest
      else if isLikelySchool line rest then
        let sc := schoolConsume line rest
        sc.1 :: eduLoop fuel sc.2
      else if reTest degreeRE line && !(reTest certificateRE line) then
        standaloneDegree line :: eduLoop fuel rest
      else eduLoop fuel rest

/-- Education extraction over the trimmed non-blank lines of one block. -/
def extractEducationLines (l : List String) : List EducationEntry := eduLoop l.length l

/-- `extractEducation` (lines 884-1049). -/
def extractEducation (educationSections : List String) : List EducationEntry :=
  educationSections.foldl (fun acc s =>
    acc ++ extractEducationLines (((splitLines s).map jsTrim).filter (fun l => l ≠ ""))) []

/-!
Skills extraction (`extractSkills`, lines 1054-1129).
-/

/-- Association-list lookup (JavaScript object property read). -/
def lookupAssoc (l : List (String × String)) (k : String) : Option String :=
  match l with
  | [] => none
  | (k0, v0) :: t => if k0 = k then some v0 else lookupAssoc t k

/-- JavaScript object assignment: update the value of an existing key or add a
new one.  The list records the keys in insertion order, which is the raw
material for `jsObjectEntries` below — enumeration itself does *not* simply
follow this order. -/
def upsertAssoc (l : List (String × String)) (k v : String) : List (String × String) :=
  match l with
  | [] => [(k, v)]
  | (k0, v0) :: t => if k0 = k then (k, v) :: t else (k0, v0) :: upsertAssoc t k v

/-- Numeric value of a digit string. -/
def digitsVal (l : List Char) : Nat :=
  l.foldl (fun a c => a * 10 + (c.toNat - '0'.toNat)) 0

/-- Whether a JavaScript property key is an *array index*: the canonical
decimal form (no leading zero except `"0"` itself) of an integer below
`2^32 - 1`.  `Object.entries` enumerates such keys first, in ascending
numeric order, before the remaining string keys. -/
def isArrayIndexKey (s : String) : Bool :=
  match s.data with
  | [] => false
  | c :: rest =>
    c.isDigit && rest.all Char.isDigit && (c ≠ '0' || rest.isEmpty) &&
      decide (digitsVal (c :: rest) < 4294967295)

/-- Insert an entry into a list sorted by ascending numeric key value. -/
def insertByVal (p : String × String) : List (String × String) → List (String × String)
  | [] => [p]
  | q :: t =>
    if digitsVal p.1.data ≤ digitsVal q.1.data then p :: q :: t
    else q :: insertByVal p t

/-- Sort entries by ascending numeric key value (keys are unique, so ties
cannot occur). -/
def sortNumericKeys : List (String × String) → List (String × String)
  | [] => []
  | p :: t => insertByVal p (sortNumericKeys t)

/-- JavaScript `Object.entries` enumeration order over a property table kept
in insertion order: array-index keys first, ascending numerically, then the
remaining string keys in insertion order. -/
def jsObjectEntries (l : List (String × String)) : List (String × String) :=
  sortNumericKeys (l.filter (fun p => isArrayIndexKey p.1)) ++
    l.filter (fun p => !(isArrayIndexKey p.1))

/-- Line 1090/1092: strip a leading bullet glyph and trim. -/
def cleanSkillLine (line : String) : String := jsTrim (reReplaceFirst skillsStripRE line)

/-- One line of the categorized-skills fold (lines 1074-1095).  A line with a
colon label opens (or replaces) the current category, seeded from the text
after the colon; any other line appends, comma-separated, to the current
category; the synthetic start category is `General`. -/
def skillsCatStep (state : List (String × String) × String) (line : String) :
    List (String × String) × String :=
  let cats := state.1
  let cur := state.2
  if reTest trailColonRE line || reTest labelColonRE line then
    match jsIndexOfChar line ':' with
    | some idx =>
      if idx > 0 then
        let newCat := jsTrim (strTake line idx)
        let after := jsTrim (strDrop line (idx + 1))
        (upsertAssoc cats newCat after, newCat)
      else (cats, cur)
    | none => (cats, cur)
  else
    let cleaned := cleanSkillLine line
    match lookupAssoc cats cur with
    | some v =>
      if v ≠ "" then (upsertAssoc cats cur (v ++ ", " ++ cleaned), cur)
      else (upsertAssoc cats cur cleaned, cur)
    | none => (upsertAssoc cats cur cleaned, cur)

/-- Body of `extractSkills` after the split into trimmed non-blank lines
(lines 1064-1128): categorized mode when some line matches `/:\s*[A-Z]/`,
otherwise flatten to a comma-joined list.  The categorized output renders
`Object.entries(categorizedSkills)` (line 1098), so the categories appear in
the `jsObjectEntries` enumeration order: array-index-like labels (such as a
`2020:` year heading) first, then the rest in insertion order. -/
def extractSkillsLines (allLines : List String) : String :=
  let hasCategories := allLines.any (fun l => reTest labelColonRE l)
  if hasCategories then
    let cats := (allLines.foldl skillsCatStep ([], "General")).1
    joinSep "\n" ((jsObjectEntries cats).map
      (fun p => if p.2 ≠ "" then p.1 ++ ": " ++ p.2 else p.1))
  else
    let skills := allLines.foldl (fun acc line =>
      let cleaned := jsTrim (reReplaceFirst skillsStripTabRE line)
      if cleaned = "" then acc
      else if hasChar cleaned ',' then
        acc ++ ((jsSplitChar ',' cleaned).map jsTrim).filter (fun s => s ≠ "")
      else acc ++ [cleaned]) []
    joinSep ", " skills

/-- `extractSkills` (lines 1054-1129); a missing skills block yields `""`. -/
def extractSkills (skillsSection : Option String) : String :=
  match skillsSection with
  | none => ""
  | some s => extractSkillsLines (((splitLines s).map jsTrim).filter (fun l => l ≠ ""))

/-- The non-blank trimmed lines handed to `extractContactInfo` (line 213). -/
def filteredLines (t : String) : List String :=
  ((splitLines t).map jsTrim).filter (fun l => l ≠ "")

/-- `parseResumeContent` (lines 176-253), rule-based path (no API key; the
network-backed AI path is out of scope).  Blank input returns the bare
`{ error: 'Resume text is empty' }` record of line 184 — with no `success`
field; on any other input the line-236 record has `success: true`, no `error`,
and `personalStatement || null` collapses an empty summary to `none`. -/
def parseResumeContent (resumeText : String) : ParseResult :=
  if jsTrim resumeText = "" then
    ⟨none, some "Resume text is empty", none, none, [], none, [], [], none⟩
  else
    let originalLines := splitLines resumeText
    let trimmedLines := originalLines.map jsTrim
    let contactInfo := extractContactInfo (filteredLines resumeText)
    let sections := extractSections originalLines trimmedLines
    let workExperience := extractWorkExperience sections.workExperience
    let education := extractEducation sections.education
    let skills := extractSkills sections.skills
    let ps :=
      match sections.personalStatement with
      | some s => if s = "" then none else some s
      | none => none
    ⟨some true, none, some contactInfo, ps, workExperience, some skills, education,
      sections.other, some resumeText⟩

/-- Claim C1 (amended): the rule-based `parseResumeContent` returns the bare
error record exactly when the input is empty or all-whitespace, and on every
other input returns a record with `success: true` and no error; being a total
function of the input, no exception can escape it. -/
theorem C1_parse_failure_iff_blank (t : String) :
    (jsTrim t = "" → parseResumeContent t =
      ⟨none, some "Resume text is empty", none, none, [], none, [], [], none⟩) ∧
    (jsTrim t ≠ "" →
      (parseResumeContent t).success = some true ∧ (parseResumeContent t).error = none) := by
  constructor
  · intro h
    unfold parseResumeContent
    rw [if_pos h]
  · intro h
    unfold parseResumeContent
    rw [if_neg h]
    exact ⟨rfl, rfl⟩

/-- Witness for C1 at the concrete inputs `""` and `"John"`. -/
theorem C1_parse_failure_iff_blank_witness :
    (parseResumeContent "").error = some "Resume text is empty" ∧
      (parseResumeContent "John").success = some true := by
  constructor
  · rw [(C1_parse_failure_iff_blank "").1 (by decide)]
  · exact ((C1_parse_failure_iff_blank "John").2 (by decide)).1

/-- Counterexample for C1 as stated: on empty input the returned record has no
`success` field at all (`success = none` in the embedding), not `success: false`. -/
theorem C1_success_field_not_false :
    (parseResumeContent "").success = none ∧
      (parseResumeContent "").success ≠ some false ∧
      (parseResumeContent "").error = some "Resume text is empty" := by
  decide

/-- Claim C2: evaluation at the failing input.  The education block line
`"• orphan"` is non-blank and is not a section header, yet the parse result
contains it nowhere: `education`, `otherSections` and every other destination
are empty, so the line is silently destroyed, contradicting the conservation
invariant. -/
theorem C2_orphan_education_line_destroyed :
    parseResumeContent "John\nEDUCATION\n• orphan" =
      ⟨some true, none, some ⟨some "John", none, none, none, none⟩, none, [], some "", [],
        [], some "John\nEDUCATION\n• orphan"⟩ := by
  decide

/-- Helper for C3: appending a bullet to the last element of a non-empty
experience list. -/
theorem pushLastBullet_append (es : List Experience) (e : Experience) (b : String) :
    pushLastBullet (es ++ [e]) b = es ++ [{ e with bullets := e.bullets ++ [b] }] := by
  unfold pushLastBullet
  rw [List.reverse_append]
  simp

/-- Claim C3 (amended): one step of the work-experience scan on a bullet line
(no pipe/dash separator, state with no open experience).  When previously
completed experiences exist, the stripped bullet is appended to the last one's
bullet list; when none exist, the state is unchanged — the bullet is dropped,
not routed anywhere. -/
theorem C3_orphan_bullet_step (rows : List (String × String)) (i : Nat)
    (cb : List String) (exps : List Experience) (line orig : String)
    (hrow : rows.getD i ("", "") = (line, orig))
    (horig : orig ≠ "")
    (hbul : isBulletLine line orig = true)
    (hpipe : containsSub line "|" = false)
    (hdash : containsSub line " - " = false) :
    (exps = [] → weStep rows i ⟨none, cb, exps⟩ = (⟨none, cb, exps⟩, i + 1)) ∧
    (∀ es e, exps = es ++ [e] →
      weStep rows i ⟨none, cb, exps⟩ =
        (⟨none, cb,
          if bulletStrip orig = "" then exps
          else es ++ [{ e with bullets := e.bullets ++ [bulletStrip orig] }]⟩, i + 1)) := by
  constructor
  · intro hemp
    subst hemp
    unfold weStep
    rw [hrow]
    simp [isLikelyCompanyAt, hbul, hpipe, hdash, horig]
  · intro es e hes
    subst hes
    by_cases hb : bulletStrip orig = ""
    · unfold weStep
      rw [hrow]
      simp [isLikelyCompanyAt, hbul, hpipe, hdash, horig, hb]
    · unfold weStep
      rw [hrow]
      simp [isLikelyCompanyAt, hbul, hpipe, hdash, horig, hb, pushLastBullet_append]

/-- Witness for C3: a concrete bullet line met with no open experience is
appended to the previously completed experience. -/
theorem C3_orphan_bullet_step_witness :
    weStep [("• Did X", "• Did X")] 0
        ⟨none, [], [⟨"Acme", "Engineer", "2020 - Present", "", ["x"]⟩]⟩ =
      (⟨none, [], [⟨"Acme", "Engineer", "2020 - Present", "", ["x", "Did X"]⟩]⟩, 1) := by
  have h := (C3_orphan_bullet_step [("• Did X", "• Did X")] 0 []
      [⟨"Acme", "Engineer", "2020 - Present", "", ["x"]⟩] "• Did X" "• Did X"
      (by decide) (by decide) (by decide) (by decide) (by decide)).2
      [] ⟨"Acme", "Engineer", "2020 - Present", "", ["x"]⟩ rfl
  exact h.trans (by decide)

/-- Counterexample for C3 as stated: in a block whose first line is an orphan
bullet followed by a normal entry, the whole parse result keeps the bullet
nowhere — `otherSections` is empty and the only experience holds only the
other bullet, so the orphan bullet is discarded rather than routed to
`otherSections`. -/
theorem C3_orphan_bullet_not_in_other_sections :
    parseResumeContent "John\nWORK EXPERIENCE\n• Orphan\nAcme Corp\nEngineer\n2020 - Present\n• Real" =
      ⟨some true, none, some ⟨some "John", none, none, none, none⟩, none,
        [⟨"Acme Corp", "Engineer", "2020 - Present", "", ["Real"]⟩], some "", [], [],
        some "John\nWORK EXPERIENCE\n• Orphan\nAcme Corp\nEngineer\n2020 - Present\n• Real"⟩ := by
  decide

/-- Claim C4 (amended): for a line that dash-splits into two parts, the
job-title keyword set decides the company (the non-matching part is the
company; when both or neither part matches, the strictly shorter part is the
company, the second on ties); and the example behaves as claimed once its
separator is the plain `" - "` the code looks for.  `Detected` fields are
`(title, company, date)`. -/
theorem C4_dash_format_company_rule :
    (∀ line first second rest, dashParts line = first :: second :: rest →
      (reTest jobTitleWordsRE first = true → reTest jobTitleWordsRE second = false →
        dashDetected line = ⟨some first, some second, none⟩) ∧
      (reTest jobTitleWordsRE first = false → reTest jobTitleWordsRE second = true →
        dashDetected line = ⟨some second, some first, none⟩) ∧
      (reTest jobTitleWordsRE first = reTest jobTitleWordsRE second →
        (first.length < second.length → dashDetected line = ⟨some second, some first, none⟩) ∧
        (¬first.length < second.length → dashDetected line = ⟨some first, some second, none⟩))) ∧
    (extractWorkExperience ["T-Mobile - SEO Manager / Website Growth\n2023 - Present\n• A\n• B"]).map
        (fun e => (e.company, e.title)) = [("T-Mobile", "SEO Manager / Website Growth")] := by
  constructor
  · intro line first second rest h
    refine ⟨?_, ?_, ?_⟩
    · intro h1 h2
      unfold dashDetected
      rw [h]
      simp [h1, h2]
    · intro h1 h2
      unfold dashDetected
      rw [h]
      simp [h1, h2]
    · intro heq
      constructor
      · intro hlen
        unfold dashDetected
        rw [h]
        cases hfst : reTest jobTitleWordsRE first <;>
          simp [hfst, heq ▸ hfst, hlen]
      · intro hlen
        unfold dashDetected
        rw [h]
        cases hfst : reTest jobTitleWordsRE first <;>
          simp [hfst, heq ▸ hfst, hlen]
  · decide

/-- Witness for C4 at the plain-hyphen example line: `"Manager"` matches the
keyword set, `"T-Mobile"` does not, so the company is `"T-Mobile"`. -/
theorem C4_dash_format_company_rule_witness :
    dashDetected "T-Mobile - SEO Manager / Website Growth" =
      ⟨some "SEO Manager / Website Growth", some "T-Mobile", none⟩ := by
  exact ((C4_dash_format_company_rule.1 "T-Mobile - SEO Manager / Website Growth"
    "T-Mobile" "SEO Manager / Website Growth" [] (by decide)).2.1 (by decide) (by decide))

/-- Counterexample for C4 as stated: the claimed block separates company and
title with an em dash, which is not the `" - "` separator the code tests for,
so the extractor keeps the whole first line as the company and leaves the
title empty instead of producing company `"T-Mobile"`. -/
theorem C4_em_dash_block_not_dash_format :
    extractWorkExperience ["T-Mobile — SEO Manager / Website Growth\n2023 - Present\n• A\n• B"] =
        [⟨"T-Mobile — SEO Manager / Website Growth", "", "2023 - Present", "", ["A", "B"]⟩] ∧
      ("T-Mobile — SEO Manager / Website Growth" : String) ≠ "T-Mobile" ∧
      ("" : String) ≠ "SEO Manager / Website Growth" := by
  decide

/-- Claim C5 (amended): a pipe line with at least three non-empty trimmed
parts is assigned positionally as `[title, company, date]` — the positional
rule overrides the date-pattern detection — and the claimed example holds. -/
theorem C5_pipe_format_positional :
    (∀ line parts, pipeParts line = parts → parts.length ≥ 3 →
      pipeDetected line =
        ⟨some (parts.getD 0 ""), some (parts.getD 1 ""), some (parts.getD 2 "")⟩) ∧
    extractWorkExperience ["Senior Engineer | Tech Co | 2020 - Present"] =
      [⟨"Tech Co", "Senior Engineer", "2020 - Present", "", []⟩] := by
  constructor
  · intro line parts h h3
    unfold pipeDetected
    rw [h, if_pos (by omega), if_pos h3]
  · decide

/-- Witness for C5 at the example line. -/
theorem C5_pipe_format_positional_witness :
    pipeDetected "Senior Engineer | Tech Co | 2020 - Present" =
      ⟨some "Senior Engineer", some "Tech Co", some "2020 - Present"⟩ := by
  have h := C5_pipe_format_positional.1 "Senior Engineer | Tech Co | 2020 - Present"
    ["Senior Engineer", "Tech Co", "2020 - Present"] (by decide) (by decide)
  exact h.trans (by decide)

/-- Counterexample for C5 as stated: in `"2020 - Present | Tech Co | Senior
Engineer"` the first part matches the date pattern, yet it is not assigned to
the date field — position wins, the date field receives `"Senior Engineer"`. -/
theorem C5_date_part_not_reassigned :
    isDate "2020 - Present" = true ∧
      extractWorkExperience ["2020 - Present | Tech Co | Senior Engineer"] =
        [⟨"Tech Co", "2020 - Present", "Senior Engineer", "", []⟩] ∧
      ("Senior Engineer" : String) ≠ "2020 - Present" := by
  decide

/-- Claim C6 (amended): an education-block line matching the certificate
keywords but not the institution keywords is emitted directly as a
certificate-only record (`school` and `degree` empty); an embedded date
*range* is extracted into `date` and removed from the certificate text, and
when no date range is embedded the whole line — school prefix included —
becomes the certificate with an empty date. -/
theorem C6_standalone_certificate_rule (line : String) (rest : List String)
    (hsh : isSectionHeader line = false)
    (hdiv : reTest dividerRE line = false)
    (hcert : isStandaloneCertificate line = true) :
    extractEducationLines (line :: rest) = standaloneCert line :: extractEducationLines rest ∧
      (∀ d, reFirstMatch dateRangeRE line = some d →
        standaloneCert line = ⟨"", "", d, "", some (jsTrim (stringReplaceFirst line d))⟩) ∧
      (reFirstMatch dateRangeRE line = none →
        standaloneCert line = ⟨"", "", "", "", some line⟩) := by
  refine ⟨?_, ?_, ?_⟩
  · show eduLoop (line :: rest).length (line :: rest) = _
    rw [List.length_cons]
    simp [eduLoop, extractEducationLines, hsh, hdiv, hcert]
  · intro d hd
    unfold standaloneCert
    rw [hd]
  · intro hd
    unfold standaloneCert
    rw [hd]

/-- Witness for C6: a certificate line with an embedded date range has the
range extracted and stripped. -/
theorem C6_standalone_certificate_rule_witness :
    extractEducationLines ["Immersive Certificate 2016 - 2017"] =
      [⟨"", "", "2016 - 2017", "", some "Immersive Certificate"⟩] := by
  have h := C6_standalone_certificate_rule "Immersive Certificate 2016 - 2017" []
    (by decide) (by decide) (by decide)
  rw [h.1, h.2.1 "2016 - 2017" (by decide)]
  decide

/-- Counterexample for C6 as stated: on the claimed block the certificate
keeps the whole line (the school prefix `"General Assembly — "` is not
stripped) and the bare year `"2016"` on the following line is not a date
range, so `date` stays empty — not the claimed
`certificate: "Web Development Immersive Certificate"`, `date: "2016"`. -/
theorem C6_general_assembly_block :
    extractEducation ["General Assembly — Web Development Immersive Certificate\n2016"] =
        [⟨"", "", "", "", some "General Assembly — Web Development Immersive Certificate"⟩] ∧
      some ("General Assembly — Web Development Immersive Certificate" : String) ≠
        some ("Web Development Immersive Certificate" : String) ∧
      ("" : String) ≠ "2016" := by
  decide

/-- Claim C7 (amended): for every input that is not all-whitespace, the contact
record is built from the non-blank trimmed lines, `name` is populated
unconditionally with the first of them (not with the verbatim first input
line), and each remaining field is `none` exactly when its pattern finds no
match in the first five of those lines joined by spaces. -/
theorem C7_contact_name_first_nonblank (rawText l : String) (ls : List String)
    (h1 : jsTrim rawText ≠ "")
    (h2 : filteredLines rawText = l :: ls) :
    (parseResumeContent rawText).contactInfo = some (extractContactInfo (l :: ls)) ∧
      (extractContactInfo (l :: ls)).name = some l ∧
      ((extractContactInfo (l :: ls)).email = none ↔
        reFirstMatch emailRE (joinSep " " ((l :: ls).take 5)) = none) ∧
      ((extractContactInfo (l :: ls)).phone = none ↔
        firstPatternMatch [phoneRE1, phoneRE2, phoneRE3] (joinSep " " ((l :: ls).take 5)) = none) ∧
      ((extractContactInfo (l :: ls)).location = none ↔
        firstPatternMatch [locRE1, locRE2] (joinSep " " ((l :: ls).take 5)) = none) ∧
      ((extractContactInfo (l :: ls)).website = none ↔
        reFirstMatch urlRE (joinSep " " ((l :: ls).take 5)) = none) := by
  refine ⟨?_, rfl, Iff.rfl, Iff.rfl, Iff.rfl, Iff.rfl⟩
  unfold parseResumeContent
  rw [if_neg h1]
  show some (extractContactInfo (filteredLines rawText)) = _
  rw [h2]

/-- Witness for C7 at a concrete one-line input. -/
theorem C7_contact_name_first_nonblank_witness :
    (parseResumeContent "Hello").contactInfo = some (extractContactInfo ["Hello"]) ∧
      (extractContactInfo ["Hello"]).name = some "Hello" := by
  have h := C7_contact_name_first_nonblank "Hello" "Hello" [] (by decide) (by decide)
  exact ⟨h.1, h.2.1⟩

/-- Counterexample for C7 as stated: for the input `"\nJohn"` the verbatim
first line is `""`, yet `name` is `"John"` — the first non-blank trimmed
line, not the first line of the input. -/
theorem C7_name_not_verbatim_first_line :
    (parseResumeContent "\nJohn").contactInfo =
        some ⟨some "John", none, none, none, none⟩ ∧
      (splitLines "\nJohn").getD 0 "" = "" ∧
      ("John" : String) ≠ "" := by
  decide

/-- Claim C8 (amended): with no section open, a line is appended to the
speculative summary exactly when it is within 30 lines of the header region,
longer than 8 characters, not a section header and not a divider — there is
no date exclusion (the `isSubstantialText` variable that tests `isDate` is
computed but never used); any other non-blank line goes to `otherSections`. -/
theorem C8_speculative_summary_condition (hdrEnd i : Nat) (orig trl : String)
    (acc : SectionsAcc) :
    ((i < hdrEnd + 30 ∧ trl.length > 8 ∧ matchSectionKey trl = none ∧
        reTest dividerRE trl = false) →
      noSectionStep hdrEnd i orig trl acc =
        { acc with personalStatement := some ((acc.personalStatement.map (fun s => s ++ " " ++ trl)).getD trl) }) ∧
    (¬(i < hdrEnd + 30 ∧ trl.length > 8 ∧ matchSectionKey trl = none ∧
        reTest dividerRE trl = false) →
      (trl ≠ "" → noSectionStep hdrEnd i orig trl acc = { acc with other := acc.other ++ [orig] }) ∧
      (trl = "" → noSectionStep hdrEnd i orig trl acc = acc)) := by
  constructor
  · rintro ⟨h1, h2, h3, h4⟩
    unfold noSectionStep
    rw [if_pos (by simp [h1, h2, h3, h4])]
    cases acc.personalStatement <;> rfl
  · intro hn
    have hb : (decide (i < hdrEnd + 30) && decide (trl.length > 8) &&
        (matchSectionKey trl).isNone && !(reTest dividerRE trl)) = false := by
      by_cases h1 : i < hdrEnd + 30 <;>
        by_cases h2 : trl.length > 8 <;>
        by_cases h3 : matchSectionKey trl = none <;>
        by_cases h4 : reTest dividerRE trl = false <;>
        simp_all [Option.isSome_iff_ne_none]
    constructor
    · intro h5
      unfold noSectionStep
      rw [if_neg (by simp [hb]), if_pos h5]
    · intro h5
      unfold noSectionStep
      rw [if_neg (by simp [hb]), if_neg (by simp [h5])]

/-- Witness for C8: a substantive line with no open section is captured as the
speculative summary. -/
theorem C8_speculative_summary_condition_witness :
    noSectionStep 0 1 "Seasoned media buyer" "Seasoned media buyer" ⟨none, [], none, [], []⟩ =
      ⟨some "Seasoned media buyer", [], none, [], []⟩ := by
  have h := (C8_speculative_summary_condition 0 1 "Seasoned media buyer" "Seasoned media buyer"
    ⟨none, [], none, [], []⟩).1 ⟨by omega, by decide, by decide, by decide⟩
  exact h.trans (by decide)

/-- Counterexample for C8 as stated: `"2020 - Present"` is a date, yet when it
is the first line after the header region with no section open it is captured
as the personal statement (and `otherSections` stays empty), contradicting the
claimed "is not itself a date" condition. -/
theorem C8_date_line_captured_as_summary :
    isDate "2020 - Present" = true ∧
      (parseResumeContent "John\na\nb\nc\nd\ne\nf\ng\n2020 - Present").personalStatement =
        some "2020 - Present" ∧
      (parseResumeContent "John\na\nb\nc\nd\ne\nf\ng\n2020 - Present").otherSections = [] := by
  decide

/-- The C9 invariant: whenever both `degree` and `certificate` are populated
in one entry, the certificate matches the certificate keywords and the degree
does not. -/
def eduExclusive (e : EducationEntry) : Prop :=
  e.degree ≠ "" → ∀ c, e.certificate = some c →
    reTest certificateRE c = true ∧ reTest certificateRE e.degree = false

/-- A standalone certificate record never populates `degree`. -/
theorem standaloneCert_exclusive (line : String) : eduExclusive (standaloneCert line) := by
  unfold eduExclusive standaloneCert
  cases h : reFirstMatch dateRangeRE line <;> simp

/-- A standalone degree record never populates `certificate`. -/
theorem standaloneDegree_exclusive (line : String) : eduExclusive (standaloneDegree line) := by
  unfold eduExclusive standaloneDegree
  simp

/-- In the school branch, a populated degree always comes from a line failing
the certificate pattern, and a certificate set alongside it from a line
passing it. -/
theorem schoolConsume_exclusive (school : String) (rest : List String) :
    eduExclusive (schoolConsume school rest).1 := by
  unfold eduExclusive schoolConsume
  cases rest with
  | nil => simp
  | cons next rest2 =>
    repeat' split
    all_goals try simp_all [Bool.and_eq_true, Bool.not_eq_true']
    all_goals repeat' split
    all_goals simp_all [Bool.and_eq_true, Bool.not_eq_true']

/-- Every entry emitted by the education loop satisfies the invariant. -/
theorem eduLoop_exclusive : ∀ (fuel : Nat) (l : List String),
    ∀ e ∈ eduLoop fuel l, eduExclusive e := by
  intro fuel
  induction fuel with
  | zero => intro l e he; simp [eduLoop] at he
  | succ n ih =>
    intro l e he
    cases l with
    | nil => simp [eduLoop] at he
    | cons line rest =>
      simp only [eduLoop] at he
      split at he
      · exact ih rest e he
      · split at he
        · rcases List.mem_cons.mp he with rfl | hm
          · exact standaloneCert_exclusive line
          · exact ih rest e hm
        · split at he
          · rcases List.mem_cons.mp he with rfl | hm
            · exact schoolConsume_exclusive line rest
            · exact ih _ e hm
          · split at he
            · rcases List.mem_cons.mp he with rfl | hm
              · exact standaloneDegree_exclusive line
              · exact ih rest e hm
            · exact ih rest e he

/-- Membership in a fold that only appends. -/
theorem foldl_append_mem {α β : Type} (f : β → List α) :
    ∀ (sections : List β) (init : List α) (e : α),
      e ∈ sections.foldl (fun acc s => acc ++ f s) init → e ∈ init ∨ ∃ s, e ∈ f s := by
  intro sections
  induction sections with
  | nil => intro init e he; exact Or.inl he
  | cons s rest ih =>
    intro init e he
    rw [List.foldl_cons] at he
    rcases ih (init ++ f s) e he with h | h
    · rcases List.mem_append.mp h with h | h
      · exact Or.inl h
      · exact Or.inr ⟨s, h⟩
    · exact Or.inr h

/-- Claim C9: in every entry produced by `extractEducation`, `degree` and
`certificate` are never both populated from the same source line — a populated
degree line always fails the certificate pattern while a populated certificate
line passes it, so the two strings (each taken verbatim from its line when
both are present) differ. -/
theorem C9_degree_certificate_mutually_exclusive (sections : List String)
    (e : EducationEntry) (he : e ∈ extractEducation sections)
    (hd : e.degree ≠ "") (c : String) (hc : e.certificate = some c) :
    reTest certificateRE c = true ∧ reTest certificateRE e.degree = false ∧ c ≠ e.degree := by
  have hex : eduExclusive e := by
    unfold extractEducation at he
    rcases foldl_append_mem _ sections [] e he with h | ⟨s, hs⟩
    · cases h
    · exact eduLoop_exclusive _ _ e hs
  obtain ⟨h1, h2⟩ := hex hd c hc
  refine ⟨h1, h2, ?_⟩
  intro hcd
  rw [hcd] at h1
  rw [h1] at h2
  cases h2

/-- Witness for C9: a block producing an entry with both a degree and a
certificate (from two distinct lines); the theorem yields that the two strings
differ. -/
theorem C9_degree_certificate_mutually_exclusive_witness :
    ((⟨"Stanford University", "B.S. Computer Science", "", "",
        some "Data Science Certificate"⟩ : EducationEntry) ∈
      extractEducation ["Stanford University\nB.S. Computer Science\nData Science Certificate"]) ∧
    ("Data Science Certificate" : String) ≠ "B.S. Computer Science" := by
  refine ⟨by decide, ?_⟩
  exact (C9_degree_certificate_mutually_exclusive
    ["Stanford University\nB.S. Computer Science\nData Science Certificate"]
    ⟨"Stanford University", "B.S. Computer Science", "", "", some "Data Science Certificate"⟩
    (by decide) (by decide) "Data Science Certificate" rfl).2.2

/-- A string append is non-empty when its left part is. -/
theorem strAppend_ne_left (a b : String) (h : a ≠ "") : a ++ b ≠ "" := by
  obtain ⟨da⟩ := a
  obtain ⟨db⟩ := b
  intro hc
  apply h
  have h2 : da ++ db = ([] : List Char) := congrArg String.data hc
  rcases List.append_eq_nil.mp h2 with ⟨h1, _⟩
  rw [h1]

/-- Associativity of string append (via the underlying lists). -/
theorem strAppend_assoc (a b c : String) : a ++ b ++ c = a ++ (b ++ c) := by
  obtain ⟨da⟩ := a
  obtain ⟨db⟩ := b
  obtain ⟨dc⟩ := c
  show String.mk (da ++ db ++ dc) = String.mk (da ++ (db ++ dc))
  rw [List.append_assoc]

/-- Joining two strings. -/
theorem joinSep_pair (sep a b : String) : joinSep sep [a, b] = a ++ sep ++ b := rfl

/-- Folding comma-appends equals the comma join. -/
theorem foldl_comma_join (xs : List String) : ∀ (x : String),
    xs.foldl (fun b y => b ++ ", " ++ y) x = joinSep ", " (x :: xs) := by
  induction xs with
  | nil => intro x; rfl
  | cons y ys ih =>
    intro x
    rw [List.foldl_cons, ih (x ++ ", " ++ y)]
    show joinSep ", " ((x ++ ", " ++ y) :: ys) = x ++ ", " ++ joinSep ", " (y :: ys)
    cases ys with
    | nil => rfl
    | cons z zs =>
      show x ++ ", " ++ y ++ ", " ++ joinSep ", " (z :: zs) =
        x ++ ", " ++ (y ++ ", " ++ joinSep ", " (z :: zs))
      simp [strAppend_assoc]

/-- The comma fold preserves non-emptiness. -/
theorem foldl_comma_ne_empty (f : String → String) (xs : List String) :
    ∀ a, a ≠ "" → xs.foldl (fun b y => b ++ ", " ++ f y) a ≠ "" := by
  induction xs with
  | nil => intro a h; exact h
  | cons y ys ih =>
    intro a h
    rw [List.foldl_cons]
    exact ih _ (strAppend_ne_left _ _ (strAppend_ne_left _ _ h))

/-- Non-colon lines accumulate, comma-joined, under the current `General`
category (the else branch of lines 1087-1094). -/
theorem skillsCat_general_fold (pre : List String) :
    ∀ acc : String, acc ≠ "" →
    (∀ p ∈ pre, reTest trailColonRE p = false ∧ reTest labelColonRE p = false ∧
      cleanSkillLine p ≠ "") →
    pre.foldl skillsCatStep ([("General", acc)], "General") =
      ([("General", pre.foldl (fun b y => b ++ ", " ++ cleanSkillLine y) acc)], "General") := by
  induction pre with
  | nil => intro acc _ _; rfl
  | cons p ps ih =>
    intro acc hacc hall
    have hp := hall p (by simp)
    rw [List.foldl_cons, List.foldl_cons]
    have hstep : skillsCatStep ([("General", acc)], "General") p =
        ([("General", acc ++ ", " ++ cleanSkillLine p)], "General") := by
      simp [skillsCatStep, lookupAssoc, upsertAssoc, hp.1, hp.2.1, hacc]
    rw [hstep]
    exact ih (acc ++ ", " ++ cleanSkillLine p)
      (strAppend_ne_left _ _ (strAppend_ne_left _ _ hacc))
      (fun q hq => hall q (by simp [hq]))

/-- Claim C10: in categorized mode, every non-colon line preceding the first
labeled line accumulates, comma-joined, under the synthetic category
`General`, and the output contains the resulting `General: ...` line even
though no input line produced the name `General` (hypothesis `hnc` states the
label cut from the first labeled line is not `General`, and the `pre` lines
open no category at all).  The output is exactly the two category lines in
`Object.entries` order: the `General: ...` line comes first unless the
label is an array-index-like key (e.g. `2020`), which `Object.entries`
enumerates before the other string keys — the `General: ...` line is present
in either branch. -/
theorem C10_synthetic_general_category (l : String) (k : Nat)
    (p0 : String) (ps : List String)
    (hall : ∀ p ∈ p0 :: ps, reTest trailColonRE p = false ∧ reTest labelColonRE p = false ∧
      cleanSkillLine p ≠ "")
    (hl : reTest labelColonRE l = true)
    (hk : jsIndexOfChar l ':' = some k) (hkpos : k > 0)
    (hnc : jsTrim (strTake l k) ≠ "General") :
    extractSkillsLines ((p0 :: ps) ++ [l]) =
      (if isArrayIndexKey (jsTrim (strTake l k)) = true then
        (if jsTrim (strDrop l (k + 1)) = "" then jsTrim (strTake l k)
         else jsTrim (strTake l k) ++ ": " ++ jsTrim (strDrop l (k + 1))) ++ "\n" ++
          ("General: " ++ joinSep ", " ((p0 :: ps).map cleanSkillLine))
      else
        "General: " ++ joinSep ", " ((p0 :: ps).map cleanSkillLine) ++ "\n" ++
          (if jsTrim (strDrop l (k + 1)) = "" then jsTrim (strTake l k)
           else jsTrim (strTake l k) ++ ": " ++ jsTrim (strDrop l (k + 1)))) := by
  have hp0 := hall p0 (by simp)
  have hnc2 : ¬(("General" : String) = jsTrim (strTake l k)) := fun h => hnc h.symm
  have hcat : ((p0 :: ps) ++ [l]).any (fun x => reTest labelColonRE x) = true := by
    simp [hl]
  unfold extractSkillsLines
  simp only [hcat, if_true]
  have hfirst : skillsCatStep ([], "General") p0 =
      ([("General", cleanSkillLine p0)], "General") := by
    simp [skillsCatStep, lookupAssoc, upsertAssoc, hp0.1, hp0.2.1]
  have hpre : (p0 :: ps).foldl skillsCatStep ([], "General") =
      ([("General", ps.foldl (fun b y => b ++ ", " ++ cleanSkillLine y) (cleanSkillLine p0))],
        "General") := by
    rw [List.foldl_cons, hfirst,
      skillsCat_general_fold ps (cleanSkillLine p0) hp0.2.2 (fun q hq => hall q (by simp [hq]))]
  have hG : ps.foldl (fun b y => b ++ ", " ++ cleanSkillLine y) (cleanSkillLine p0) ≠ "" :=
    foldl_comma_ne_empty cleanSkillLine ps (cleanSkillLine p0) hp0.2.2
  have hGjoin : ps.foldl (fun b y => b ++ ", " ++ cleanSkillLine y) (cleanSkillLine p0) =
      joinSep ", " ((p0 :: ps).map cleanSkillLine) := by
    rw [← List.foldl_map, foldl_comma_join, List.map_cons]
  have hlabel : skillsCatStep
      ([("General", ps.foldl (fun b y => b ++ ", " ++ cleanSkillLine y) (cleanSkillLine p0))],
        "General") l =
      ([("General", ps.foldl (fun b y => b ++ ", " ++ cleanSkillLine y) (cleanSkillLine p0)),
        (jsTrim (strTake l k), jsTrim (strDrop l (k + 1)))], jsTrim (strTake l k)) := by
    simp [skillsCatStep, hl, hk, hkpos, upsertAssoc, hnc2]
  rw [List.foldl_append, hpre, List.foldl_cons, List.foldl_nil, hlabel, hGjoin]
  have hG2 : joinSep ", " ((p0 :: ps).map cleanSkillLine) ≠ "" := hGjoin ▸ hG
  have hGen : ("General" : String) ++ ": " = "General: " := by decide
  have hG3 : joinSep ", " (cleanSkillLine p0 :: ps.map cleanSkillLine) ≠ "" := by
    rw [← List.map_cons]
    exact hG2
  have hGidx : isArrayIndexKey "General" = false := by decide
  by_cases hidx : isArrayIndexKey (jsTrim (strTake l k)) = true
  · have hent : jsObjectEntries
        [("General", joinSep ", " ((p0 :: ps).map cleanSkillLine)),
          (jsTrim (strTake l k), jsTrim (strDrop l (k + 1)))] =
        [(jsTrim (strTake l k), jsTrim (strDrop l (k + 1))),
          ("General", joinSep ", " ((p0 :: ps).map cleanSkillLine))] := by
      simp [jsObjectEntries, sortNumericKeys, insertByVal, hGidx, hidx]
    rw [hent, if_pos hidx]
    by_cases ha : jsTrim (strDrop l (k + 1)) = "" <;>
      simp [joinSep_pair, hG2, hG3, ha, ← strAppend_assoc, hGen]
  · have hidx2 : isArrayIndexKey (jsTrim (strTake l k)) = false := by
      simpa using hidx
    have hent : jsObjectEntries
        [("General", joinSep ", " ((p0 :: ps).map cleanSkillLine)),
          (jsTrim (strTake l k), jsTrim (strDrop l (k + 1)))] =
        [("General", joinSep ", " ((p0 :: ps).map cleanSkillLine)),
          (jsTrim (strTake l k), jsTrim (strDrop l (k + 1)))] := by
      simp [jsObjectEntries, sortNumericKeys, insertByVal, hGidx, hidx2]
    rw [hent, if_neg hidx]
    by_cases ha : jsTrim (strDrop l (k + 1)) = "" <;>
      simp [joinSep_pair, hG2, hG3, ha, ← strAppend_assoc, hGen]

/-- Witness for C10: one plain line before one labeled line yields a
`General:` category line absent from the input; `Tools` is not an
array-index key, so the `General: ...` line comes first. -/
theorem C10_synthetic_general_category_witness :
    extractSkillsLines ["JavaScript, React", "Tools: Docker"] =
      "General: JavaScript, React\nTools: Docker" := by
  have h := C10_synthetic_general_category "Tools: Docker" 5 "JavaScript, React" []
    (by decide) (by decide) (by decide) (by decide) (by decide)
  exact h.trans (by decide)

/-- `Object.entries` ordering check: an array-index-like category label such
as `2020` is enumerated before the synthetic `General` category, so the
`General: ...` line is present but second. -/
example :
    extractSkillsLines ["JavaScript, React", "2020: Python"] =
      "2020: Python\nGeneral: JavaScript, React" := by
  decide
